import Mathlib

/-!
Verification of the request front end in `handler.py` (PDF-Extract-Kit serving
layer).  The Python code is shallowly embedded: bytes are natural numbers,
file names are lists of characters, the per-request temporary workspace is an
association list from names to byte contents, and the external pipeline and
the network are oracles passed in as functions.  The two delivery surfaces
(`process_pdf`, the FastAPI endpoint, and `handler`, the serverless event
handler) are modelled as pure functions returning their response together
with an effect record (workspace existence after the request, whether the
pipeline was invoked, whether the network was fetched, and the resolved file
at pipeline-invocation time).
-/

namespace PEK

/-- A byte, as stored in files; well-formed bytes are `< 256`. -/
abbrev Byte := Nat

/-- File contents: a sequence of bytes. -/
abbrev Bytes := List Nat

/-- A file name (or path), as a list of characters. -/
abbrev FName := List Char

/-- The per-request workspace: an association list from file name to content,
most recent write first (a later write to the same name shadows earlier ones,
matching overwrite-on-open semantics). -/
abbrev FS := List (FName × Bytes)

/-- Write (create or overwrite) a file in the workspace. -/
def fsWrite (n : FName) (c : Bytes) (fs : FS) : FS := (n, c) :: fs

/-- Read a file from the workspace; `none` models `os.path.exists` failing. -/
def fsLookup (fs : FS) (n : FName) : Option Bytes :=
  match fs with
  | [] => none
  | (m, c) :: rest => if m = n then some c else fsLookup rest n

/-- Sequentially apply a list of file writes (the pipeline's side effects on
`save_dir`) to a workspace. -/
def applyWrites (ws : List (FName × Bytes)) (fs : FS) : FS :=
  ws.foldl (fun acc nc => fsWrite nc.1 nc.2 acc) fs

/-- The standard base64 alphabet: sextet value to ASCII code
(`A`-`Z`, `a`-`z`, `0`-`9`, `+`, `/`), as used by `base64.b64encode`. -/
def b64char (n : Nat) : Nat :=
  if n < 26 then 65 + n
  else if n < 52 then 97 + (n - 26)
  else if n < 62 then 48 + (n - 52)
  else if n = 62 then 43
  else 47

/-- Inverse of the base64 alphabet: ASCII code to sextet value, `none` for
characters outside the alphabet. -/
def b64val (c : Nat) : Option Nat :=
  if 65 ≤ c ∧ c ≤ 90 then some (c - 65)
  else if 97 ≤ c ∧ c ≤ 122 then some (26 + (c - 97))
  else if 48 ≤ c ∧ c ≤ 57 then some (52 + (c - 48))
  else if c = 43 then some 62
  else if c = 47 then some 63
  else none

/-- `base64.b64encode`: three input bytes become four alphabet characters;
a final group of one or two bytes is padded with `=` (ASCII 61). -/
def b64encode : Bytes → Bytes
  | a :: b :: c :: rest =>
      b64char (a / 4) :: b64char ((a % 4) * 16 + b / 16) ::
      b64char ((b % 16) * 4 + c / 64) :: b64char (c % 64) :: b64encode rest
  | [a, b] => [b64char (a / 4), b64char ((a % 4) * 16 + b / 16), b64char ((b % 16) * 4), 61]
  | [a] => [b64char (a / 4), b64char ((a % 4) * 16), 61, 61]
  | [] => []

/-- `base64.b64decode` on canonically padded input: groups of four characters
are decoded through the alphabet, `=` padding terminates the input; anything
else fails (`none` models the raised `binascii.Error`). -/
def b64decode : Bytes → Option Bytes
  | [] => some []
  | c1 :: c2 :: c3 :: c4 :: rest =>
    if c3 = 61 then
      if c4 = 61 ∧ rest = [] then
        match b64val c1, b64val c2 with
        | some v1, some v2 => some [v1 * 4 + v2 / 16]
        | _, _ => none
      else none
    else if c4 = 61 then
      if rest = [] then
        match b64val c1, b64val c2, b64val c3 with
        | some v1, some v2, some v3 => some [v1 * 4 + v2 / 16, (v2 % 16) * 16 + v3 / 4]
        | _, _, _ => none
      else none
    else
      match b64val c1, b64val c2, b64val c3, b64val c4, b64decode rest with
      | some v1, some v2, some v3, some v4, some bs =>
          some ([v1 * 4 + v2 / 16, (v2 % 16) * 16 + v3 / 4, (v3 % 4) * 64 + v4] ++ bs)
      | _, _, _, _, _ => none
  | _ => none

lemma b64val_b64char : ∀ n < 64, b64val (b64char n) = some n := by decide

lemma b64char_ne_pad : ∀ n < 64, b64char n ≠ 61 := by decide

/-- Decoding a canonical encoding recovers the original bytes. -/
theorem b64decode_b64encode : ∀ l : Bytes, (∀ x ∈ l, x < 256) →
    b64decode (b64encode l) = some l := by
  intro l
  induction l using b64encode.induct with
  | case1 a b c rest ih =>
    intro h
    have ha : a < 256 := h a (by simp)
    have hb : b < 256 := h b (by simp)
    have hc : c < 256 := h c (by simp)
    have h1 : a / 4 < 64 := by omega
    have h2 : (a % 4) * 16 + b / 16 < 64 := by omega
    have h3 : (b % 16) * 4 + c / 64 < 64 := by omega
    have h4 : c % 64 < 64 := by omega
    have ihr := ih (fun x hx => h x (by simp [hx]))
    rw [b64encode, b64decode]
    rw [if_neg (b64char_ne_pad _ h3)]
    rw [if_neg (b64char_ne_pad _ h4)]
    rw [b64val_b64char _ h1, b64val_b64char _ h2, b64val_b64char _ h3,
      b64val_b64char _ h4, ihr]
    simp only [Option.some.injEq]
    have e1 : a / 4 * 4 + ((a % 4) * 16 + b / 16) / 16 = a := by omega
    have e2 : ((a % 4) * 16 + b / 16) % 16 * 16 + ((b % 16) * 4 + c / 64) / 4 = b := by omega
    have e3 : ((b % 16) * 4 + c / 64) % 4 * 64 + c % 64 = c := by omega
    rw [e1, e2, e3]
    simp
  | case2 a b =>
    intro h
    have ha : a < 256 := h a (by simp)
    have hb : b < 256 := h b (by simp)
    have h1 : a / 4 < 64 := by omega
    have h2 : (a % 4) * 16 + b / 16 < 64 := by omega
    have h3 : (b % 16) * 4 < 64 := by omega
    rw [b64encode, b64decode]
    rw [if_neg (b64char_ne_pad _ h3)]
    rw [if_pos rfl, if_pos rfl]
    rw [b64val_b64char _ h1, b64val_b64char _ h2, b64val_b64char _ h3]
    simp only [Option.some.injEq]
    have e1 : a / 4 * 4 + ((a % 4) * 16 + b / 16) / 16 = a := by omega
    have e2 : ((a % 4) * 16 + b / 16) % 16 * 16 + (b % 16) * 4 / 4 = b := by omega
    rw [e1, e2]
  | case3 a =>
    intro h
    have ha : a < 256 := h a (by simp)
    have h1 : a / 4 < 64 := by omega
    have h2 : (a % 4) * 16 < 64 := by omega
    rw [b64encode, b64decode]
    rw [if_pos rfl, if_pos ⟨rfl, rfl⟩]
    rw [b64val_b64char _ h1, b64val_b64char _ h2]
    simp only [Option.some.injEq]
    have e1 : a / 4 * 4 + (a % 4) * 16 / 16 = a := by omega
    rw [e1]
  | case4 => intro _; rfl

/-- The part of a path after its last `/` (what `os.path.basename` returns
for a path produced by `os.path.join(temp_dir, name)`, restricted to the
`name` part). -/
def lastSeg (p : FName) : FName :=
  (p.reverse.takeWhile (fun c => c ≠ '/')).reverse

/-- The extension of a slash-free file name, following `posixpath.splitext`:
everything from the last dot onwards, provided some character before that dot
is not itself a dot (so leading-dot names such as `.bashrc` have no
extension). -/
def extOf (n : FName) : FName :=
  let rev := n.reverse
  let afterRev := rev.takeWhile (fun c => c ≠ '.')
  match rev.dropWhile (fun c => c ≠ '.') with
  | [] => []
  | _ :: before =>
      if before.any (fun c => c ≠ '.') then '.' :: afterRev.reverse else []

/-- `os.path.splitext(url)[1]`: the extension of the path's final segment. -/
def splitextExt (p : FName) : FName := extOf (lastSeg p)

/-- `str.lower()` on the ASCII content-type strings considered here. -/
def pyLower (s : FName) : FName := s.map Char.toLower

/-- Python's `in` on strings: contiguous-subsequence containment. -/
def containsSeq (needle hay : FName) : Bool :=
  match hay with
  | [] => needle.isEmpty
  | _ :: t => needle.isPrefixOf hay || containsSeq needle t

/-- Python's `str.endswith`. -/
def pyEndsWith (s suf : FName) : Bool := decide (suf <:+ s)

/-- Extension chosen for a downloaded file (both surfaces, identical code):
content-type containing `pdf` wins, then content-type containing `image`,
then the URL's own extension, then the `.pdf` default. -/
def chooseExt (contentType url : FName) : FName :=
  if containsSeq ("pdf".toList) (pyLower contentType) then ".pdf".toList
  else if containsSeq ("image".toList) (pyLower contentType) then ".png".toList
  else
    let e := splitextExt url
    if e = [] then ".pdf".toList else e

/-- Resolution of a `url` input once the fetch succeeded: the body is written
to `downloaded<ext>` in the (fresh) workspace. -/
def resolveUrl (u ct : FName) (body : Bytes) : FName × FS :=
  let path := "downloaded".toList ++ chooseExt ct u
  (path, fsWrite path body [])

/-- The artifact basename the Result Assembler derives:
`os.path.basename(file_path)[:-4]`, i.e. the file name with its last four
characters removed (not extension-aware). -/
def artifactBasename (path : FName) : FName :=
  (lastSeg path).take ((lastSeg path).length - 4)

/-- Modelled from the spec (§4.4): the resolved file's name with its
extension removed, the extension being understood as `os.path.splitext`
computes it.  This is the basename the specification describes; it is
compared against `artifactBasename`, which embeds the code's fixed-width
slice. -/
def specStem (n : FName) : FName := n.take (n.length - (extOf n).length)

/-- A JSON-ish value stored in a response mapping. -/
inductive JVal where
  | jbool (b : Bool)
  | jstr (s : FName)
  | jbytes (b : Bytes)
deriving Repr, DecidableEq

/-- A response mapping (Python dict) with string keys in insertion order. -/
abbrev JMap := List (String × JVal)

/-- Whether a response mapping has a given key. -/
def hasKey (k : String) (m : JMap) : Bool := m.any (fun p => p.1 = k)

/-- Fetch the value stored under a key, if present. -/
def getKey (m : JMap) (k : String) : Option JVal :=
  (m.find? (fun p => p.1 = k)).map Prod.snd

/-- Outcome of `requests.get` + `raise_for_status`: either an exception
(connection error, timeout, non-2xx status) or a response with its
content-type header and body bytes. -/
inductive FetchResult where
  | exc (msg : FName)
  | ok (contentType : FName) (body : Bytes)

/-- The network, as an oracle from URL to fetch outcome. -/
abbrev Net := FName → FetchResult

/-- Outcome of `pdf_extract_task.process`: an exception, or an opaque result
together with the files the pipeline wrote into `save_dir`. -/
inductive PipeResult where
  | raise (msg : FName)
  | done (results : FName) (writes : List (FName × Bytes))

/-- The external pipeline, as an oracle over the resolved file path (which on
the HTTP surface can be `None`) and the two options. -/
abbrev Pipeline := Option FName → Bool → Bool → PipeResult

/-- Observable effects of one request: whether the temporary workspace still
exists after the request, whether the pipeline was invoked, whether the
network was fetched, and the resolved (path, workspace) at invocation time. -/
structure Eff where
  wsAfter : Bool
  pipelineCalled : Bool
  fetched : Bool
  resolved : Option (Option FName × FS)
deriving Repr, DecidableEq

/-- Outcome of the HTTP endpoint: an `HTTPException` with status and detail,
an uncaught exception propagating as a server error, or a JSON body. -/
inductive HttpOut where
  | httpError (status : Nat) (detail : FName)
  | serverError (msg : FName)
  | ok (body : JMap)
deriving Repr, DecidableEq

/-- `hasKey` through an `HttpOut`: only a successful JSON body has keys. -/
def httpHasKey (k : String) : HttpOut → Bool
  | .ok m => hasKey k m
  | _ => false

/-- The local `markdown_content` of the Result Assembler: only when
`merge2markdown` was requested, the content of `workspace/<basename>.md`. -/
def markdown_content (path : FName) (fs : FS) (merge2markdown : Bool) : Option Bytes :=
  if merge2markdown then
    fsLookup fs (artifactBasename path ++ ".md".toList)
  else none

/-- The local `visualization_data` of the Result Assembler: only when
`visualize` was requested, the base64 encoding of `workspace/<basename>.png`,
falling back to `workspace/<basename>.pdf` when the png is absent and the
resolved file path ends in `.pdf`. -/
def visualization_data (path : FName) (fs : FS) (visualize : Bool) : Option Bytes :=
  if visualize then
    (fsLookup fs
      (if (fsLookup fs (artifactBasename path ++ ".png".toList)).isNone
          && pyEndsWith path (".pdf".toList) then
        artifactBasename path ++ ".pdf".toList
      else artifactBasename path ++ ".png".toList)).map b64encode
  else none

/-- The Result Assembler (identical trailing code of `process_pdf` and
`handler`): derive the basename, conditionally read `<basename>.md` and
`<basename>.png` (falling back to `<basename>.pdf` when the input was a
PDF), and build the envelope.  The `if markdown_content:` and
`if visualization_data:` truthiness checks drop `None` and empty strings. -/
def assemble (path : FName) (fs : FS) (results : FName)
    (visualize merge2markdown : Bool) : JMap :=
  [("success", JVal.jbool true), ("results", JVal.jstr results)]
    ++ (match markdown_content path fs merge2markdown with
        | some m => if m = [] then [] else [("markdown", JVal.jbytes m)]
        | none => [])
    ++ (match visualization_data path fs visualize with
        | some v => if v = [] then [] else [("visualization", JVal.jbytes v)]
        | none => [])

/-- Pipeline invocation and result assembly on the HTTP surface: a pipeline
exception propagates (after workspace cleanup) as a server error; a `None`
file path reaches `os.path.basename(None)` and raises unless both artifact
blocks are skipped. -/
def runPipelineHttp (path : Option FName) (fs0 : FS)
    (visualize merge2markdown : Bool) (pipe : Pipeline) (fetched : Bool) :
    HttpOut × Eff :=
  match pipe path visualize merge2markdown with
  | .raise msg => (HttpOut.serverError msg, ⟨false, true, fetched, some (path, fs0)⟩)
  | .done results writes =>
      match path with
      | some p =>
          let fs1 := applyWrites writes fs0
          (HttpOut.ok (assemble p fs1 results visualize merge2markdown),
           ⟨false, true, fetched, some (some p, fs0)⟩)
      | none =>
          if merge2markdown || visualize then
            (HttpOut.serverError "TypeError".toList,
             ⟨false, true, fetched, some (none, fs0)⟩)
          else
            (HttpOut.ok [("success", JVal.jbool true), ("results", JVal.jstr results)],
             ⟨false, true, fetched, some (none, fs0)⟩)

/-- The FastAPI `POST /process` endpoint.  The upload, when present, is a
(filename, bytes) pair.  The guard `if file is None and url is None` yields a
400; dispatch is by truthiness (`if file: ... elif url:`), so an empty-string
URL leaves the file path `None`.  The `with TemporaryDirectory()` scope
removes the workspace on every exit path. -/
def process_pdf (file : Option (FName × Bytes)) (url : Option FName)
    (visualize merge2markdown : Bool) (net : Net) (pipe : Pipeline) :
    HttpOut × Eff :=
  match file, url with
  | none, none =>
      (HttpOut.httpError 400 ("Either file or url must be provided".toList),
       ⟨false, false, false, none⟩)
  | some f, _ =>
      runPipelineHttp (some f.1) (fsWrite f.1 f.2 []) visualize merge2markdown pipe false
  | none, some u =>
      if u = [] then
        runPipelineHttp none [] visualize merge2markdown pipe false
      else
        match net u with
        | .exc m =>
            (HttpOut.httpError 400 ("Failed to download file from URL: ".toList ++ m),
             ⟨false, false, true, none⟩)
        | .ok ct body =>
            let r := resolveUrl u ct body
            runPipelineHttp (some r.1) r.2 visualize merge2markdown pipe true

/-- Stack-trace text captured by `traceback.format_exc()` for a message. -/
def format_exc (msg : FName) : FName :=
  "Traceback (most recent call last): ".toList ++ msg

/-- Pipeline invocation and result assembly on the event surface: a pipeline
exception is caught by the surrounding `try` and reported as an
`error`/`traceback` mapping. -/
def eventRun (path : FName) (fs0 : FS) (visualize merge2markdown : Bool)
    (pipe : Pipeline) (fetched : Bool) : JMap × Eff :=
  match pipe (some path) visualize merge2markdown with
  | .raise msg =>
      ([("error", JVal.jstr msg), ("traceback", JVal.jstr (format_exc msg))],
       ⟨false, true, fetched, some (some path, fs0)⟩)
  | .done results writes =>
      (assemble path (applyWrites writes fs0) results visualize merge2markdown,
       ⟨false, true, fetched, some (some path, fs0)⟩)

/-- Error message of the `binascii.Error` raised by `base64.b64decode` on a
malformed payload. -/
def b64ErrMsg : FName := "Invalid base64-encoded string".toList

/-- The serverless event handler.  Dispatch is by key presence
(`if "file_base64" in input_data: ... elif "url" in input_data:`); a decoded
payload is written to `input.pdf`.  Download failures return an `error`-only
mapping from inside the inner `try`; any exception reaching the outer `try`
(decode failure, pipeline failure) is returned as an `error`/`traceback`
mapping.  The `with TemporaryDirectory()` scope removes the workspace on
every exit path. -/
def handler (fileB64 : Option Bytes) (urlIn : Option FName)
    (visualize merge2markdown : Bool) (net : Net) (pipe : Pipeline) :
    JMap × Eff :=
  match fileB64 with
  | some payload =>
      match b64decode payload with
      | none =>
          ([("error", JVal.jstr b64ErrMsg), ("traceback", JVal.jstr (format_exc b64ErrMsg))],
           ⟨false, false, false, none⟩)
      | some bytes =>
          eventRun ("input.pdf".toList) (fsWrite ("input.pdf".toList) bytes [])
            visualize merge2markdown pipe false
  | none =>
    match urlIn with
    | some u =>
        match net u with
        | .exc m =>
            ([("error", JVal.jstr ("Failed to download file from URL: ".toList ++ m))],
             ⟨false, false, true, none⟩)
        | .ok ct body =>
            let r := resolveUrl u ct body
            eventRun r.1 r.2 visualize merge2markdown pipe true
    | none =>
        ([("error", JVal.jstr ("Either file_base64 or url must be provided".toList))],
         ⟨false, false, false, none⟩)

lemma lastSeg_no_slash (n : FName) (h : ('/' : Char) ∉ n) : lastSeg n = n := by
  have ht : n.reverse.takeWhile (fun c => c ≠ '/') = n.reverse := by
    rw [List.takeWhile_eq_self_iff]
    intro x hx
    rw [List.mem_reverse] at hx
    simp only [ne_eq, decide_eq_true_eq]
    intro hc
    exact h (hc ▸ hx)
  unfold lastSeg
  rw [ht, List.reverse_reverse]

lemma b64encode_ne_nil (bs : Bytes) (h : bs ≠ []) : b64encode bs ≠ [] := by
  match bs with
  | [] => exact absurd rfl h
  | [a] => simp [b64encode]
  | [a, b] => simp [b64encode]
  | a :: b :: c :: rest => simp [b64encode]

lemma hasKey_assemble_success (p : FName) (fs : FS) (r : FName) (vis m2m : Bool) :
    hasKey "success" (assemble p fs r vis m2m) = true := by
  unfold assemble hasKey
  simp

lemma hasKey_assemble_not_envelope (k : String) (p : FName) (fs : FS) (r : FName)
    (vis m2m : Bool) (h1 : k ≠ "success") (h2 : k ≠ "results") (h3 : k ≠ "markdown")
    (h4 : k ≠ "visualization") : hasKey k (assemble p fs r vis m2m) = false := by
  unfold assemble hasKey
  cases hm : markdown_content p fs m2m with
  | none =>
    cases hv : visualization_data p fs vis with
    | none => simp [List.any_append, Ne.symm h1, Ne.symm h2]
    | some v =>
      by_cases hvv : v = [] <;>
        simp [List.any_append, Ne.symm h1, Ne.symm h2, Ne.symm h4, hvv]
  | some m =>
    cases hv : visualization_data p fs vis with
    | none =>
      by_cases hmm : m = [] <;>
        simp [List.any_append, Ne.symm h1, Ne.symm h2, Ne.symm h3, hmm]
    | some v =>
      by_cases hmm : m = [] <;> by_cases hvv : v = [] <;>
        simp [List.any_append, Ne.symm h1, Ne.symm h2, Ne.symm h3, Ne.symm h4, hmm, hvv]

lemma hasKey_assemble_markdown_off (p : FName) (fs : FS) (r : FName) (vis : Bool) :
    hasKey "markdown" (assemble p fs r vis false) = false := by
  unfold assemble hasKey markdown_content
  cases hv : visualization_data p fs vis with
  | none => simp [List.any_append]
  | some v => by_cases hvv : v = [] <;> simp [List.any_append, hvv]

lemma visualization_data_fallback (p : FName) (fs : FS) (bs : Bytes)
    (h1 : pyEndsWith p (".pdf".toList) = true)
    (h2 : fsLookup fs (artifactBasename p ++ ".png".toList) = none)
    (h3 : fsLookup fs (artifactBasename p ++ ".pdf".toList) = some bs) :
    visualization_data p fs true = some (b64encode bs) := by
  unfold visualization_data
  rw [if_pos rfl, h2, h1]
  simp only [Option.isNone_none, Bool.and_self, if_true]
  rw [h3]
  rfl

lemma getKey_assemble_vis (p : FName) (fs : FS) (r : FName) (vis m2m : Bool)
    (bs : Bytes) (hv : visualization_data p fs vis = some bs) (hne : bs ≠ []) :
    getKey (assemble p fs r vis m2m) "visualization" = some (JVal.jbytes bs) := by
  unfold assemble getKey
  rw [hv]
  simp only [List.find?_append]
  have hfirst : List.find? (fun q => q.1 = "visualization")
      [(("success" : String), JVal.jbool true), ("results", JVal.jstr r)] = none := by
    simp [List.find?]
  rw [hfirst]
  have hmd : List.find? (fun q => q.1 = "visualization")
      (match markdown_content p fs m2m with
        | some m => if m = [] then [] else [(("markdown" : String), JVal.jbytes m)]
        | none => []) = none := by
    split
    · split
      · rfl
      · simp
    · rfl
  rw [hmd]
  rw [if_neg hne]
  simp [List.find?]

lemma runPipelineHttp_eff (path : Option FName) (fs0 : FS) (vis m2m : Bool)
    (pipe : Pipeline) (fetched : Bool) :
    (runPipelineHttp path fs0 vis m2m pipe fetched).2
      = ⟨false, true, fetched, some (path, fs0)⟩ := by
  unfold runPipelineHttp
  split
  · rfl
  · split
    · rfl
    · split <;> rfl

lemma eventRun_eff (path : FName) (fs0 : FS) (vis m2m : Bool)
    (pipe : Pipeline) (fetched : Bool) :
    (eventRun path fs0 vis m2m pipe fetched).2
      = ⟨false, true, fetched, some (some path, fs0)⟩ := by
  unfold eventRun
  split <;> rfl

/-- Claim C1, counterexample: for the uploaded file name `noext` (no
extension) the code's basename is `n`, not the extension-stripped `noext`,
and the assembler consequently misses an existing `noext.md` artifact. -/
theorem c1_basename_counterexample :
    artifactBasename ("noext".toList) ≠ specStem ("noext".toList)
    ∧ hasKey "markdown"
        (assemble ("noext".toList)
          (fsWrite ("noext.md".toList) [104, 105] (fsWrite ("noext".toList) [1] []))
          ("r".toList) false true) = false := by decide

/-- Claim C1 (amended): the artifact basename is the resolved file's name
with its last four characters removed; it coincides with extension removal
exactly for names whose `splitext` extension has four characters (a dot plus
three), and diverges for other names. -/
theorem c1_basename_amended (n : FName) (h1 : ('/' : Char) ∉ n)
    (h2 : (extOf n).length = 4) : artifactBasename n = specStem n := by
  unfold artifactBasename specStem
  rw [lastSeg_no_slash n h1, h2]

/-- Witness for `c1_basename_amended` at the name `doc.pdf`. -/
theorem c1_basename_amended_witness :
    (('/' : Char) ∉ ("doc.pdf".toList) ∧ (extOf ("doc.pdf".toList)).length = 4)
    ∧ artifactBasename ("doc.pdf".toList) = specStem ("doc.pdf".toList) :=
  ⟨⟨by decide, by decide⟩, c1_basename_amended _ (by decide) (by decide)⟩

/-- Claim C4: with neither file nor URL, the HTTP surface answers 400 with a
detail message and the event surface answers an `error` mapping; neither
invokes the pipeline. -/
theorem c4_missing_input (vis m2m : Bool) (net : Net) (pipe : Pipeline) :
    (process_pdf none none vis m2m net pipe).1
      = HttpOut.httpError 400 ("Either file or url must be provided".toList)
    ∧ (process_pdf none none vis m2m net pipe).2.pipelineCalled = false
    ∧ hasKey "error" (handler none none vis m2m net pipe).1 = true
    ∧ (handler none none vis m2m net pipe).2.pipelineCalled = false :=
  ⟨rfl, rfl, rfl, rfl⟩

/-- Claim C5: on both surfaces and on every exit path (missing input,
download failure, pipeline exception, success) the request's temporary
workspace no longer exists once the request completes. -/
theorem c5_workspace_removed (file : Option (FName × Bytes)) (url : Option FName)
    (fileB64 : Option Bytes) (urlIn : Option FName) (v1 m1 v2 m2 : Bool)
    (net1 net2 : Net) (pipe1 pipe2 : Pipeline) :
    (process_pdf file url v1 m1 net1 pipe1).2.wsAfter = false
    ∧ (handler fileB64 urlIn v2 m2 net2 pipe2).2.wsAfter = false := by
  constructor
  · rcases file with _ | f
    · rcases url with _ | u
      · rfl
      · simp only [process_pdf]
        split
        · simp [runPipelineHttp_eff]
        · split
          · rfl
          · simp [runPipelineHttp_eff]
    · simp [process_pdf, runPipelineHttp_eff]
  · rcases fileB64 with _ | pb
    · rcases urlIn with _ | u
      · rfl
      · simp only [handler]
        split
        · rfl
        · simp [eventRun_eff]
    · simp only [handler]
      split
      · rfl
      · simp [eventRun_eff]

lemma runPipelineHttp_no_markdown (path : Option FName) (fs0 : FS) (vis : Bool)
    (pipe : Pipeline) (fetched : Bool) :
    httpHasKey "markdown" (runPipelineHttp path fs0 vis false pipe fetched).1 = false := by
  unfold runPipelineHttp
  split
  · rfl
  · split
    · exact hasKey_assemble_markdown_off _ _ _ _
    · split
      · rfl
      · simp [httpHasKey, hasKey]

lemma eventRun_no_markdown (path : FName) (fs0 : FS) (vis : Bool)
    (pipe : Pipeline) (fetched : Bool) :
    hasKey "markdown" (eventRun path fs0 vis false pipe fetched).1 = false := by
  unfold eventRun
  split
  · simp [hasKey]
  · exact hasKey_assemble_markdown_off _ _ _ _

/-- Claim C7: with `merge2markdown=false` the success envelope never carries
a `markdown` key on either surface, whatever the pipeline wrote. -/
theorem c7_no_markdown_when_off (file : Option (FName × Bytes)) (url : Option FName)
    (fileB64 : Option Bytes) (urlIn : Option FName) (v1 v2 : Bool)
    (net1 net2 : Net) (pipe1 pipe2 : Pipeline) :
    httpHasKey "markdown" (process_pdf file url v1 false net1 pipe1).1 = false
    ∧ hasKey "markdown" (handler fileB64 urlIn v2 false net2 pipe2).1 = false := by
  constructor
  · rcases file with _ | f
    · rcases url with _ | u
      · rfl
      · simp only [process_pdf]
        split
        · exact runPipelineHttp_no_markdown _ _ _ _ _
        · split
          · rfl
          · exact runPipelineHttp_no_markdown _ _ _ _ _
    · simp only [process_pdf]
      exact runPipelineHttp_no_markdown _ _ _ _ _
  · rcases fileB64 with _ | pb
    · rcases urlIn with _ | u
      · rfl
      · simp only [handler]
        split
        · rfl
        · exact eventRun_no_markdown _ _ _ _ _
    · simp only [handler]
      split
      · simp [hasKey]
      · exact eventRun_no_markdown _ _ _ _ _

/-- Claim C10: a present file input takes precedence: the URL input and the
network never influence the response and no fetch happens, on both
surfaces. -/
theorem c10_file_precedence (f : FName × Bytes) (payload : Bytes) (u1 u2 : Option FName)
    (vis m2m : Bool) (net1 net2 : Net) (pipe : Pipeline) :
    process_pdf (some f) u1 vis m2m net1 pipe = process_pdf (some f) u2 vis m2m net2 pipe
    ∧ (process_pdf (some f) u1 vis m2m net1 pipe).2.fetched = false
    ∧ handler (some payload) u1 vis m2m net1 pipe = handler (some payload) u2 vis m2m net2 pipe
    ∧ (handler (some payload) u1 vis m2m net1 pipe).2.fetched = false := by
  refine ⟨rfl, ?_, rfl, ?_⟩
  · simp [process_pdf, runPipelineHttp_eff]
  · simp only [handler]
    split
    · rfl
    · simp [eventRun_eff]

lemma eventRun_error_shape (path : FName) (fs0 : FS) (vis m2m : Bool)
    (pipe : Pipeline) (fetched : Bool) :
    (hasKey "success" (eventRun path fs0 vis m2m pipe fetched).1 = true
      ∨ hasKey "error" (eventRun path fs0 vis m2m pipe fetched).1 = true)
    ∧ hasKey "trace" (eventRun path fs0 vis m2m pipe fetched).1 = false
    ∧ (hasKey "success" (eventRun path fs0 vis m2m pipe fetched).1 = false
      ∨ hasKey "error" (eventRun path fs0 vis m2m pipe fetched).1 = false) := by
  unfold eventRun
  split
  · exact ⟨Or.inr (by simp [hasKey]), by simp [hasKey], Or.inl (by simp [hasKey])⟩
  · exact ⟨Or.inl (hasKey_assemble_success _ _ _ _ _),
      hasKey_assemble_not_envelope "trace" _ _ _ _ _
        (by simp) (by simp) (by simp) (by simp),
      Or.inr (hasKey_assemble_not_envelope "error" _ _ _ _ _
        (by simp) (by simp) (by simp) (by simp))⟩

/-- Claim C3, counterexample: a processing exception on the event surface
yields a failing mapping that has an `error` key but no `trace` key (the
stack trace is stored under `traceback`), so the claim as stated is false. -/
theorem c3_trace_key_counterexample :
    hasKey "error" (handler (some []) none false false (fun _ => FetchResult.exc [])
        (fun _ _ _ => PipeResult.raise ("boom".toList))).1 = true
    ∧ hasKey "traceback" (handler (some []) none false false (fun _ => FetchResult.exc [])
        (fun _ _ _ => PipeResult.raise ("boom".toList))).1 = true
    ∧ hasKey "trace" (handler (some []) none false false (fun _ => FetchResult.exc [])
        (fun _ _ _ => PipeResult.raise ("boom".toList))).1 = false := by decide

/-- Claim C3 (amended): every failing invocation of the event handler
returns a mapping with an `error` string rather than raising; no result ever
carries a `trace` key (exceptions caught at the outer boundary store the
stack-trace text under `traceback` instead, and download failures and
missing input return only `error`); successful results carry `success` and
no `error`. -/
theorem c3_error_reporting (fileB64 : Option Bytes) (urlIn : Option FName)
    (vis m2m : Bool) (net : Net) (pipe : Pipeline) :
    (hasKey "success" (handler fileB64 urlIn vis m2m net pipe).1 = true
      ∨ hasKey "error" (handler fileB64 urlIn vis m2m net pipe).1 = true)
    ∧ hasKey "trace" (handler fileB64 urlIn vis m2m net pipe).1 = false
    ∧ (hasKey "success" (handler fileB64 urlIn vis m2m net pipe).1 = false
      ∨ hasKey "error" (handler fileB64 urlIn vis m2m net pipe).1 = false) := by
  rcases fileB64 with _ | pb
  · rcases urlIn with _ | u
    · exact ⟨Or.inr (by simp [handler, hasKey]), by simp [handler, hasKey],
        Or.inl (by simp [handler, hasKey])⟩
    · simp only [handler]
      split
      · exact ⟨Or.inr (by simp [hasKey]), by simp [hasKey], Or.inl (by simp [hasKey])⟩
      · exact eventRun_error_shape _ _ _ _ _ _
  · simp only [handler]
    split
    · exact ⟨Or.inr (by simp [hasKey]), by simp [hasKey], Or.inl (by simp [hasKey])⟩
    · exact eventRun_error_shape _ _ _ _ _ _

/-- Claim C2, counterexample: a URL that ends in `.jpg` whose final path
segment is exactly `.jpg` has no extension for `os.path.splitext`, so with
an empty content-type the chosen extension is the `.pdf` default, not
`.jpg`. -/
theorem c2_url_extension_counterexample :
    pyEndsWith ("http://host/.jpg".toList) (".jpg".toList) = true
    ∧ chooseExt [] ("http://host/.jpg".toList) = ".pdf".toList := by decide

/-- Claim C2 (amended): extension choice follows the stated precedence:
a content-type containing `pdf` gives `.pdf` regardless of the URL, one
containing `image` gives `.png`, an empty content-type defers to the URL's
own `splitext` extension (so a URL whose extension is `.jpg` gives `.jpg`,
while the suffix-free URL `http://host/photo` gives the `.pdf` default), and
the body is written to `downloaded<ext>` in the workspace. -/
theorem c2_extension_inference (url1 url2 url3 ct : FName) (body : Bytes)
    (h3 : splitextExt url3 = ".jpg".toList) :
    chooseExt ("application/pdf".toList) url1 = ".pdf".toList
    ∧ chooseExt ("image/png".toList) (url2 ++ ".jpg".toList) = ".png".toList
    ∧ chooseExt [] url3 = ".jpg".toList
    ∧ chooseExt [] ("http://host/photo".toList) = ".pdf".toList
    ∧ (resolveUrl url1 ct body).1 = "downloaded".toList ++ chooseExt ct url1
    ∧ fsLookup (resolveUrl url1 ct body).2 ((resolveUrl url1 ct body).1) = some body := by
  refine ⟨?_, ?_, ?_, by decide, rfl, ?_⟩
  · unfold chooseExt
    rw [if_pos (show containsSeq ("pdf".toList) (pyLower ("application/pdf".toList)) = true
      by decide)]
  · unfold chooseExt
    rw [if_neg (show ¬ containsSeq ("pdf".toList) (pyLower ("image/png".toList)) = true
      by decide)]
    rw [if_pos (show containsSeq ("image".toList) (pyLower ("image/png".toList)) = true
      by decide)]
  · unfold chooseExt
    rw [if_neg (show ¬ containsSeq ("pdf".toList) (pyLower ([] : FName)) = true by decide)]
    rw [if_neg (show ¬ containsSeq ("image".toList) (pyLower ([] : FName)) = true by decide)]
    rw [h3]
    rw [if_neg (show ¬ (".jpg".toList = ([] : FName)) by decide)]
  · simp [resolveUrl, fsLookup, fsWrite]

/-- Witness for `c2_extension_inference` at a URL with a proper `.jpg`
extension and a concrete body. -/
theorem c2_extension_inference_witness :
    splitextExt ("http://host/photo.jpg".toList) = ".jpg".toList
    ∧ (chooseExt ("application/pdf".toList) ("http://a/b".toList) = ".pdf".toList
      ∧ chooseExt ("image/png".toList) ("http://c/d".toList ++ ".jpg".toList) = ".png".toList
      ∧ chooseExt [] ("http://host/photo.jpg".toList) = ".jpg".toList
      ∧ chooseExt [] ("http://host/photo".toList) = ".pdf".toList
      ∧ (resolveUrl ("http://a/b".toList) ("application/pdf".toList) [9]).1
          = "downloaded".toList ++ chooseExt ("application/pdf".toList) ("http://a/b".toList)
      ∧ fsLookup (resolveUrl ("http://a/b".toList) ("application/pdf".toList) [9]).2
          ((resolveUrl ("http://a/b".toList) ("application/pdf".toList) [9]).1) = some [9]) :=
  ⟨by decide, c2_extension_inference ("http://a/b".toList) ("http://c/d".toList)
    ("http://host/photo.jpg".toList) ("application/pdf".toList) [9] (by decide)⟩

/-- Claim C6: each input variant resolves to a workspace file whose bytes
are exactly the source bytes: the upload's bytes under the upload's name,
the fetched body under `downloaded<ext>`, and — via the base64 round trip —
the original bytes under `input.pdf` for an encoded payload. -/
theorem c6_resolution_preserves_bytes (nm : FName) (bytes : Bytes) (u ct : FName)
    (body : Bytes) (x : Bytes) (url0 : Option FName) (vis m2m : Bool) (net : Net)
    (pipe : Pipeline) (hu : u ≠ []) (hx : ∀ b ∈ x, b < 256) :
    (process_pdf (some (nm, bytes)) url0 vis m2m net pipe).2.resolved
      = some (some nm, fsWrite nm bytes [])
    ∧ fsLookup (fsWrite nm bytes []) nm = some bytes
    ∧ (process_pdf none (some u) vis m2m (fun _ => FetchResult.ok ct body) pipe).2.resolved
      = some (some ("downloaded".toList ++ chooseExt ct u),
          fsWrite ("downloaded".toList ++ chooseExt ct u) body [])
    ∧ fsLookup (fsWrite ("downloaded".toList ++ chooseExt ct u) body [])
        ("downloaded".toList ++ chooseExt ct u) = some body
    ∧ (handler (some (b64encode x)) none vis m2m net pipe).2.resolved
      = some (some ("input.pdf".toList), fsWrite ("input.pdf".toList) x [])
    ∧ fsLookup (fsWrite ("input.pdf".toList) x []) ("input.pdf".toList) = some x := by
  refine ⟨?_, ?_, ?_, ?_, ?_, ?_⟩
  · simp [process_pdf, runPipelineHttp_eff]
  · simp [fsLookup, fsWrite]
  · simp only [process_pdf]
    rw [if_neg hu]
    simp [runPipelineHttp_eff, resolveUrl]
  · simp [fsLookup, fsWrite]
  · simp only [handler]
    rw [b64decode_b64encode x hx]
    simp [eventRun_eff]
  · simp [fsLookup, fsWrite]

/-- Witness for `c6_resolution_preserves_bytes` at concrete inputs,
including the base64 round trip of the bytes `[0, 255]`. -/
theorem c6_resolution_preserves_bytes_witness :
    (("http://h/x".toList ≠ ([] : FName)) ∧ (∀ b ∈ [0, 255], b < 256))
    ∧ ((process_pdf (some ("a.pdf".toList, [1, 2])) none false false
          (fun _ => FetchResult.exc []) (fun _ _ _ => PipeResult.raise [])).2.resolved
        = some (some ("a.pdf".toList), fsWrite ("a.pdf".toList) [1, 2] [])
      ∧ fsLookup (fsWrite ("a.pdf".toList) [1, 2] []) ("a.pdf".toList) = some [1, 2]
      ∧ (process_pdf none (some ("http://h/x".toList)) false false
          (fun _ => FetchResult.ok ("application/pdf".toList) [9])
          (fun _ _ _ => PipeResult.raise [])).2.resolved
        = some (some ("downloaded".toList
              ++ chooseExt ("application/pdf".toList) ("http://h/x".toList)),
            fsWrite ("downloaded".toList
              ++ chooseExt ("application/pdf".toList) ("http://h/x".toList)) [9] [])
      ∧ fsLookup (fsWrite ("downloaded".toList
            ++ chooseExt ("application/pdf".toList) ("http://h/x".toList)) [9] [])
          ("downloaded".toList
            ++ chooseExt ("application/pdf".toList) ("http://h/x".toList)) = some [9]
      ∧ (handler (some (b64encode [0, 255])) none false false
          (fun _ => FetchResult.exc []) (fun _ _ _ => PipeResult.raise [])).2.resolved
        = some (some ("input.pdf".toList), fsWrite ("input.pdf".toList) [0, 255] [])
      ∧ fsLookup (fsWrite ("input.pdf".toList) [0, 255] []) ("input.pdf".toList)
        = some [0, 255]) :=
  ⟨⟨by decide, by decide⟩,
    c6_resolution_preserves_bytes ("a.pdf".toList) [1, 2] ("http://h/x".toList)
      ("application/pdf".toList) [9] [0, 255] none false false
      (fun _ => FetchResult.exc []) (fun _ _ _ => PipeResult.raise [])
      (by decide) (by decide)⟩

/-- Claim C8, counterexample: a zero-byte `.pdf` input with `visualize=true`
satisfies the claim's premises (no `doc.png`, `doc.pdf` present) yet the
envelope has no `visualization` key, because the empty base64 string is
dropped by the truthiness check. -/
theorem c8_vis_fallback_counterexample :
    fsLookup (fsWrite ("doc.pdf".toList) [] []) ("doc.png".toList) = none
    ∧ fsLookup (fsWrite ("doc.pdf".toList) [] []) ("doc.pdf".toList) = some []
    ∧ httpHasKey "visualization"
        (process_pdf (some ("doc.pdf".toList, [])) none true true
          (fun _ => FetchResult.exc []) (fun _ _ _ => PipeResult.done ("r".toList) [])).1
      = false := by decide

/-- Claim C8 (amended): with `visualize=true`, a resolved `.pdf` input, no
`<basename>.png` and a nonempty `<basename>.pdf` in the workspace, the
assembler returns that file's base64 encoding under `visualization`; a
zero-byte artifact is dropped by the truthiness check. -/
theorem c8_vis_fallback (p : FName) (fs : FS) (r : FName) (m2m : Bool) (bs : Bytes)
    (h1 : pyEndsWith p (".pdf".toList) = true)
    (h2 : fsLookup fs (artifactBasename p ++ ".png".toList) = none)
    (h3 : fsLookup fs (artifactBasename p ++ ".pdf".toList) = some bs)
    (h4 : bs ≠ []) :
    getKey (assemble p fs r true m2m) "visualization"
      = some (JVal.jbytes (b64encode bs)) :=
  getKey_assemble_vis p fs r true m2m (b64encode bs)
    (visualization_data_fallback p fs bs h1 h2 h3) (b64encode_ne_nil bs h4)

/-- Witness for `c8_vis_fallback` at a one-byte `doc.pdf` artifact. -/
theorem c8_vis_fallback_witness :
    (pyEndsWith ("doc.pdf".toList) (".pdf".toList) = true
      ∧ fsLookup (fsWrite ("doc.pdf".toList) [5] [])
          (artifactBasename ("doc.pdf".toList) ++ ".png".toList) = none
      ∧ fsLookup (fsWrite ("doc.pdf".toList) [5] [])
          (artifactBasename ("doc.pdf".toList) ++ ".pdf".toList) = some [5]
      ∧ ([5] : Bytes) ≠ [])
    ∧ getKey (assemble ("doc.pdf".toList) (fsWrite ("doc.pdf".toList) [5] [])
        ("r".toList) true false) "visualization"
      = some (JVal.jbytes (b64encode [5])) :=
  ⟨⟨by decide, by decide, by decide, by decide⟩,
    c8_vis_fallback ("doc.pdf".toList) (fsWrite ("doc.pdf".toList) [5] [])
      ("r".toList) false [5] (by decide) (by decide) (by decide) (by decide)⟩

/-- Claim C9, counterexample: an empty base64 payload resolves to a
zero-byte `input.pdf`; with `visualize=true` and no `input.png` the fallback
path is the input file itself, yet the success envelope carries no
`visualization` key (empty encoding is dropped), so the field is not always
present. -/
theorem c9_vis_input_counterexample :
    hasKey "success" (handler (some []) none true true (fun _ => FetchResult.exc [])
        (fun _ _ _ => PipeResult.done ("r".toList) [])).1 = true
    ∧ fsLookup (fsWrite ("input.pdf".toList) [] []) ("input.png".toList) = none
    ∧ hasKey "visualization" (handler (some []) none true true
        (fun _ => FetchResult.exc [])
        (fun _ _ _ => PipeResult.done ("r".toList) [])).1 = false := by decide

/-- Claim C9 (amended): for a resolved name ending in `.pdf` the fallback
path `<basename>.pdf` is the resolved input file's own path, and when the
input bytes are nonempty (and still what the workspace holds at that path,
with no `png` artifact) the `visualization` field is exactly their base64
encoding; for a zero-byte input the key is omitted. -/
theorem c9_vis_is_input (pre : FName) (payload bytes : Bytes) (m2m : Bool) (net : Net)
    (r : FName) (ws : List (FName × Bytes))
    (hn : ('/' : Char) ∉ pre ++ ".pdf".toList)
    (hd : b64decode payload = some bytes) (hne : bytes ≠ [])
    (hpng : fsLookup (applyWrites ws (fsWrite ("input.pdf".toList) bytes []))
        ("input.png".toList) = none)
    (hpdf : fsLookup (applyWrites ws (fsWrite ("input.pdf".toList) bytes []))
        ("input.pdf".toList) = some bytes) :
    artifactBasename (pre ++ ".pdf".toList) ++ ".pdf".toList = pre ++ ".pdf".toList
    ∧ getKey (handler (some payload) none true m2m net
        (fun _ _ _ => PipeResult.done r ws)).1 "visualization"
      = some (JVal.jbytes (b64encode bytes)) := by
  constructor
  · unfold artifactBasename
    rw [lastSeg_no_slash _ hn]
    have hl : (pre ++ ".pdf".toList).length - 4 = pre.length := by
      rw [List.length_append]
      rfl
    rw [hl, List.take_left]
  · simp only [handler]
    rw [hd]
    simp only [eventRun]
    have e2 : artifactBasename ("input.pdf".toList) ++ ".png".toList
        = "input.png".toList := by decide
    have e3 : artifactBasename ("input.pdf".toList) ++ ".pdf".toList
        = "input.pdf".toList := by decide
    exact getKey_assemble_vis _ _ _ _ _ _
      (visualization_data_fallback _ _ bytes (by decide)
        (by rw [e2]; exact hpng) (by rw [e3]; exact hpdf))
      (b64encode_ne_nil bytes hne)

/-- Witness for `c9_vis_is_input` at the one-byte payload `b64encode [7]`. -/
theorem c9_vis_is_input_witness :
    (('/' : Char) ∉ ("doc".toList ++ ".pdf".toList)
      ∧ b64decode (b64encode [7]) = some [7]
      ∧ ([7] : Bytes) ≠ []
      ∧ fsLookup (applyWrites [] (fsWrite ("input.pdf".toList) [7] []))
          ("input.png".toList) = none
      ∧ fsLookup (applyWrites [] (fsWrite ("input.pdf".toList) [7] []))
          ("input.pdf".toList) = some [7])
    ∧ (artifactBasename ("doc".toList ++ ".pdf".toList) ++ ".pdf".toList
        = "doc".toList ++ ".pdf".toList
      ∧ getKey (handler (some (b64encode [7])) none true false
          (fun _ => FetchResult.exc [])
          (fun _ _ _ => PipeResult.done ("r".toList) [])).1 "visualization"
        = some (JVal.jbytes (b64encode [7]))) :=
  ⟨⟨by decide, by decide, by decide, by decide, by decide⟩,
    c9_vis_is_input ("doc".toList) (b64encode [7]) [7] false
      (fun _ => FetchResult.exc []) ("r".toList) []
      (by decide) (by decide) (by decide) (by decide) (by decide)⟩

end PEK
